import Mathlib

/-!
Verification of the aggregate-estimation notebook
`augenblick-rabin-2019/code/table_1.ipynb` (replication of Table 1, column 1,
of Augenblick and Rabin 2019).

The notebook is a single-pass statistical estimation pipeline: it builds a flat
observation table, defines a Tobit-corrected negative log-likelihood of a
quasi-hyperbolic discounting model, minimizes it with Nelder-Mead, and computes
cluster-robust sandwich standard errors.  Below, the data model and every
operation the claims refer to are embedded shallowly: pandas rows become an
`Obs` structure, numpy vectorized arithmetic becomes per-observation real
arithmetic mapped over a list, the scipy/autograd outputs (the minimizer, the
Hessian matrix and the per-row gradient vectors) are universally quantified
inputs of the downstream computations that consume them.
-/

namespace Table1

/-- One row of the cleaned observation table `dt` (after the `keep` column
selection in the notebook): individual id `wid`, payment/work date distance
`netdistance`, piece-rate `wage`, time-of-decision flag `today`, prediction
flag `prediction`, projection-bias dummy `pb`, observed `effort`, and the two
boundary-effort dummies. -/
structure Obs where
  wid : ℤ
  netdistance : ℝ
  wage : ℝ
  today : ℝ
  prediction : ℝ
  pb : ℝ
  effort : ℝ
  ind_effort10 : ℝ
  ind_effort110 : ℝ

/-- The 7 model parameters, in the order in which `negloglike` unpacks its
`params` argument: `beta, betahat, delta, gamma, phi, alpha, sigma`. -/
structure Params where
  beta : ℝ
  betahat : ℝ
  delta : ℝ
  gamma : ℝ
  phi : ℝ
  alpha : ℝ
  sigma : ℝ

/-- The function `scipy.stats.norm.pdf x loc scale`: the Gaussian density with mean `loc`
and standard deviation `scale`, as used in `negloglike`. -/
noncomputable def normPdf (x loc scale : ℝ) : ℝ :=
  Real.exp (-((x - loc) ^ 2) / (2 * scale ^ 2)) / (scale * Real.sqrt (2 * Real.pi))

/-- The function `scipy.stats.norm.cdf`: the standard Gaussian cumulative distribution
function, as used in the Tobit branches of `negloglike`. -/
noncomputable def normCdf (x : ℝ) : ℝ := ∫ t in Set.Iic x, normPdf t 0 1

/-- The predicted optimal effort from the notebook (`negloglike`, line
`predchoice=...`):
`((phi*(delta**netdistance)*(beta**today)*(betahat**prediction)*wage)**(1/(gamma-1)))-pb*alpha`.
Python float exponentiation with a real exponent is `Real.rpow`. -/
noncomputable def predchoice (p : Params) (o : Obs) : ℝ :=
  (p.phi * p.delta ^ o.netdistance * p.beta ^ o.today * p.betahat ^ o.prediction
      * o.wage) ^ (1 / (p.gamma - 1)) - o.pb * p.alpha

/-- One entry of the vector `prob` in `negloglike`: the Tobit-corrected
likelihood of a single observation,
`(1-ind_effort10-ind_effort110)*norm.pdf(effort, predchoice, sigma)
 + ind_effort10*(1 - norm.cdf((predchoice-effort)/sigma))
 + ind_effort110*norm.cdf((predchoice-effort)/sigma)`. -/
noncomputable def probObs (p : Params) (o : Obs) : ℝ :=
  (1 - o.ind_effort10 - o.ind_effort110) * normPdf o.effort (predchoice p o) p.sigma
    + o.ind_effort10 * (1 - normCdf ((predchoice p o - o.effort) / p.sigma))
    + o.ind_effort110 * normCdf ((predchoice p o - o.effort) / p.sigma)

/-- The two `anp.where` guards of `negloglike`, applied to one entry in the
order of the code: first `prob = anp.where(prob == 0.0, 1.0e-4, prob)`, then
`prob = anp.where(prob == 1.0, 1.0 - 1.0e-4, prob)`. -/
noncomputable def clampProb (x : ℝ) : ℝ :=
  let x1 := if x = 0 then 1.0e-4 else x
  if x1 = 1 then 1 - 1.0e-4 else x1

/-- The value computed by `negloglike` for unpacked parameters:
`- anp.sum(anp.log(prob))` after the two clamps. -/
noncomputable def negll (p : Params) (data : List Obs) : ℝ :=
  -((data.map (fun o => Real.log (clampProb (probObs p o)))).sum)

/-- The notebook function `negloglike(params, ...)`: its first statement
`beta, betahat, delta, gamma, phi, alpha, sigma = params` unpacks the
parameter vector into exactly seven components (Python raises on any other
length, embedded here as `none`). -/
noncomputable def negloglike (params : List ℝ) (data : List Obs) : Option ℝ :=
  match params with
  | [beta, betahat, delta, gamma, phi, alpha, sigma] =>
      some (negll ⟨beta, betahat, delta, gamma, phi, alpha, sigma⟩ data)
  | _ => none

/-- The initial guess `par_init = anp.array([beta_init, betahat_init,
delta_init, gamma_init, phi_init, alpha_init, sigma_init])`. -/
noncomputable def par_init : List ℝ := [0.8, 1.0, 1.0, 2.0, 500.0, 7.0, 40.0]

/-- The count `K = len(res)`: the number of parameters used in the degrees-of-freedom
adjustment.  `res = sol.x` is the point returned by `scipy.optimize.minimize`,
which has the same dimension as the initial guess `par_init` it was started
from, so `len(res) = len(par_init)`. -/
noncomputable def K : ℕ := par_init.length

/-- The dummy-variable construction of the cleaning cell:
`dt['ind_effort10'] = (dt['effort']==10).astype(int)`. -/
noncomputable def mk_ind_effort10 (effort : ℝ) : ℝ := if effort = 10 then 1 else 0

/-- The dummy-variable construction of the cleaning cell:
`dt['ind_effort110'] = (dt['effort']==110).astype(int)`. -/
noncomputable def mk_ind_effort110 (effort : ℝ) : ℝ := if effort = 110 then 1 else 0

/-- The matrix `hess_inv = np.linalg.inv(hessian)`, where `hessian = Hfun(res, *mle_args)`
is the autograd Hessian of `negloglike` (the NEGATIVE log-likelihood) at the
estimate; the matrix produced by autograd enters here as an input. -/
noncomputable def hess_inv (hessian : Matrix (Fin 7) (Fin 7) ℝ) :
    Matrix (Fin 7) (Fin 7) ℝ :=
  hessian⁻¹

/-- The matrix `varcov_estimates = adj * (hess_inv @ G @ hess_inv)`. -/
noncomputable def varcov_estimates (adj : ℝ) (hessian G : Matrix (Fin 7) (Fin 7) ℝ) :
    Matrix (Fin 7) (Fin 7) ℝ :=
  adj • (hess_inv hessian * G * hess_inv hessian)

/-- The vector `se_cluster = np.sqrt(np.diag(varcov_estimates))`. -/
noncomputable def se_cluster (adj : ℝ) (hessian G : Matrix (Fin 7) (Fin 7) ℝ) :
    Fin 7 → ℝ :=
  fun j => Real.sqrt (varcov_estimates adj hessian G j j)

/-- Sum of a list of gradient vectors (the `.sum()` of a pandas groupby
group): used for `gradients.groupby("wid").sum()`. -/
noncomputable def sumScores (g : Obs → Fin 7 → ℝ) (l : List Obs) : Fin 7 → ℝ :=
  (l.map g).sum

/-- The summed score of the cluster of individual `w`: the group labelled `w`
in `gradients.groupby("wid")` consists of the rows of `dt` with `wid = w`, and
`.sum()` adds their per-row gradients `gradfun(res, *row)`.  The per-row
gradient function `g` produced by autograd enters as an input. -/
noncomputable def clusterScore (g : Obs → Fin 7 → ℝ) (data : List Obs) (w : ℤ) :
    Fin 7 → ℝ :=
  sumScores g (data.filter (fun o => o.wid == w))

/-- The rows `gradients_indiv = gradients.groupby("wid").sum()` followed by
`.to_numpy()`: one summed score vector per distinct individual id. -/
noncomputable def gradients_indiv (g : Obs → Fin 7 → ℝ) (data : List Obs) :
    List (Fin 7 → ℝ) :=
  ((data.map Obs.wid).dedup).map (clusterScore g data)

/-- The broadcast outer product
`gradients_indiv[:, :, None] * gradients_indiv[:, None, :]` of one row with
itself. -/
noncomputable def outer (s : Fin 7 → ℝ) : Matrix (Fin 7) (Fin 7) ℝ :=
  Matrix.of fun k l => s k * s l

/-- The matrix `G = np.sum(G_j, axis=0)`: the sum over individuals of the per-cluster
outer products `G_j`. -/
noncomputable def Gmat (g : Obs → Fin 7 → ℝ) (data : List Obs) :
    Matrix (Fin 7) (Fin 7) ℝ :=
  ((gradients_indiv g data).map outer).sum

/-- The middle matrix as the spec describes it: a sum over clusters (distinct
individual ids) of the outer product of the cluster's summed score vector with
itself. -/
noncomputable def GSpec (g : Obs → Fin 7 → ℝ) (data : List Obs) :
    Matrix (Fin 7) (Fin 7) ℝ :=
  ∑ w ∈ (data.map Obs.wid).toFinset, outer (clusterScore g data w)

/-- The degrees-of-freedom/cluster adjustment
`adj = (Nobs-1)/(Nobs-K) * Nindiv/(Nindiv-1)`, in exact rational arithmetic. -/
def adjQ (nobs k nclus : ℕ) : ℚ :=
  ((nobs : ℚ) - 1) / ((nobs : ℚ) - (k : ℚ)) * (nclus : ℚ) / ((nclus : ℚ) - 1)

/-- Modelled from the spec: the iteration loop of scipy.optimize's
Nelder-Mead `minimize` (the optimizer's source is not part of this
repository).  The loop repeats a simplex update step until convergence or
until the fuel — the `maxiter` option — runs out; the second component counts
the iterations performed. -/
def nmLoop {α : Type} (step : α → α) (converged : α → Bool) : ℕ → α → α × ℕ
  | 0, s => (s, 0)
  | n + 1, s =>
      if converged s then (s, 0)
      else
        let r := nmLoop step converged n (step s)
        (r.1, r.2 + 1)

/-- The iteration cap passed in the notebook:
`opt.minimize(negloglike, par_init, args=mle_args, method='Nelder-Mead',
options={'maxiter': 1500})`. -/
def maxiter : ℕ := 1500

/-- Modelled from the spec: the optimization step `sol = opt.minimize(...)`
of the notebook, as the Nelder-Mead loop run with fuel `maxiter`. -/
def minimizeNM {α : Type} (step : α → α) (converged : α → Bool) (s0 : α) : α × ℕ :=
  nmLoop step converged maxiter s0

/-- Concrete parameter vector used to instantiate universally quantified
theorems: beta 1, betahat 1, delta 1, gamma 2, phi 1, alpha 0, sigma 1. -/
noncomputable def params1 : Params := ⟨1, 1, 1, 2, 1, 0, 1⟩

/-- Concrete observation at the lower effort boundary (effort 10,
ind_effort10 = 1, ind_effort110 = 0). -/
noncomputable def obsLower : Obs := ⟨1, 0, 1, 0, 0, 0, 10, 1, 0⟩

/-- Claim C9: the dummies generated by `(effort==10)` and `(effort==110)`
each take value 0 or 1 and are never both 1, the three Tobit branch weights
sum to 1, and for every effort value exactly one of the three branch weights
equals 1 while the other two vanish. -/
theorem c9_dummies_exclusive (e : ℝ) :
    (mk_ind_effort10 e = 0 ∨ mk_ind_effort10 e = 1)
    ∧ (mk_ind_effort110 e = 0 ∨ mk_ind_effort110 e = 1)
    ∧ ¬(mk_ind_effort10 e = 1 ∧ mk_ind_effort110 e = 1)
    ∧ (1 - mk_ind_effort10 e - mk_ind_effort110 e) + mk_ind_effort10 e
        + mk_ind_effort110 e = 1
    ∧ ((mk_ind_effort10 e = 0 ∧ mk_ind_effort110 e = 0
          ∧ 1 - mk_ind_effort10 e - mk_ind_effort110 e = 1)
       ∨ (mk_ind_effort10 e = 1 ∧ mk_ind_effort110 e = 0
          ∧ 1 - mk_ind_effort10 e - mk_ind_effort110 e = 0)
       ∨ (mk_ind_effort10 e = 0 ∧ mk_ind_effort110 e = 1
          ∧ 1 - mk_ind_effort10 e - mk_ind_effort110 e = 0)) := by
  unfold mk_ind_effort10 mk_ind_effort110
  by_cases h1 : e = 10
  · subst h1
    norm_num
  · by_cases h2 : e = 110
    · subst h2
      norm_num
    · simp [h1, h2]

/-- Claim C3: the likelihood contribution of one observation applies the
Tobit correction exactly at the effort boundaries: with `ind_effort10 = 1` it
is `1 - Φ((e* - e)/σ)`, with `ind_effort110 = 1` it is `Φ((e* - e)/σ)`, and
with both dummies 0 it is the Gaussian density of the observed effort around
the predicted effort with standard deviation σ. -/
theorem c3_tobit_branches (p : Params) (o : Obs) :
    (o.ind_effort10 = 1 ∧ o.ind_effort110 = 0 →
        probObs p o = 1 - normCdf ((predchoice p o - o.effort) / p.sigma))
    ∧ (o.ind_effort110 = 1 ∧ o.ind_effort10 = 0 →
        probObs p o = normCdf ((predchoice p o - o.effort) / p.sigma))
    ∧ (o.ind_effort10 = 0 ∧ o.ind_effort110 = 0 →
        probObs p o = normPdf o.effort (predchoice p o) p.sigma) := by
  unfold probObs
  refine ⟨fun h => ?_, fun h => ?_, fun h => ?_⟩ <;> rw [h.1, h.2] <;> ring

/-- Witness for C3: at the concrete boundary observation `obsLower` the
lower-boundary branch applies. -/
theorem c3_tobit_branches_witness :
    (obsLower.ind_effort10 = 1 ∧ obsLower.ind_effort110 = 0)
    ∧ probObs params1 obsLower
        = 1 - normCdf ((predchoice params1 obsLower - obsLower.effort)
            / params1.sigma) :=
  ⟨⟨rfl, rfl⟩, (c3_tobit_branches params1 obsLower).1 ⟨rfl, rfl⟩⟩

/-- Claim C5: the clamping in `negloglike` replaces an entry exactly 0 by
`1.0e-4` and an entry exactly 1 by `1 - 1.0e-4`, leaves every other entry
unchanged, and maps every entry of `[0, 1]` to a strictly positive value; the
returned value is exactly minus the sum of the logarithms of the clamped
per-observation likelihoods, so no log is taken at a non-positive argument. -/
theorem c5_clamp_guard :
    clampProb 0 = 1.0e-4
    ∧ clampProb 1 = 1 - 1.0e-4
    ∧ (∀ x : ℝ, x ≠ 0 → x ≠ 1 → clampProb x = x)
    ∧ (∀ x : ℝ, 0 ≤ x → x ≤ 1 → 0 < clampProb x)
    ∧ ∀ (p : Params) (data : List Obs),
        negll p data
          = -((data.map (fun o => Real.log (clampProb (probObs p o)))).sum) := by
  refine ⟨?_, ?_, ?_, ?_, fun p data => rfl⟩
  · unfold clampProb
    norm_num
  · unfold clampProb
    norm_num
  · intro x hx0 hx1
    unfold clampProb
    simp [hx0, hx1]
  · intro x hx0 hx1
    unfold clampProb
    by_cases h0 : x = 0
    · subst h0
      norm_num
    · by_cases h1 : x = 1
      · subst h1
        norm_num
      · simp [h0, h1]
        exact lt_of_le_of_ne hx0 (Ne.symm h0)

/-- Witness for C5: the entry 1/2 lies in `[0, 1]` and its clamped value is
strictly positive. -/
theorem c5_clamp_guard_witness :
    (0 : ℝ) ≤ 1 / 2 ∧ (1 / 2 : ℝ) ≤ 1 ∧ 0 < clampProb (1 / 2) :=
  ⟨by norm_num, by norm_num,
    c5_clamp_guard.2.2.2.1 (1 / 2) (by norm_num) (by norm_num)⟩

/-- Claim C7: `negloglike` unpacks its parameter argument into exactly seven
components (it yields a value exactly when the vector has length 7), the
initial guess `par_init` has 7 entries, and the parameter count `K` used in
the degrees-of-freedom adjustment equals 7. -/
theorem c7_seven_parameters :
    (∀ (ps : List ℝ) (data : List Obs), (negloglike ps data).isSome ↔ ps.length = 7)
    ∧ par_init.length = 7 ∧ K = 7 := by
  refine ⟨fun ps data => ?_, rfl, rfl⟩
  rcases ps with _ | ⟨a, _ | ⟨b, _ | ⟨c, _ | ⟨d, _ | ⟨e, _ | ⟨f, _ | ⟨g, _ | ⟨h, t⟩⟩⟩⟩⟩⟩⟩⟩ <;>
    simp [negloglike]

/-- Iteration count of the Nelder-Mead loop never exceeds its fuel. -/
lemma nmLoop_le {α : Type} (step : α → α) (converged : α → Bool) :
    ∀ (n : ℕ) (s : α), (nmLoop step converged n s).2 ≤ n := by
  intro n
  induction n with
  | zero => intro s; simp [nmLoop]
  | succ n ih =>
      intro s
      unfold nmLoop
      by_cases h : converged s = true
      · simp [h]
      · simp [h]
        exact ih (step s)

/-- Claim C6: the optimization step runs the Nelder-Mead loop under the
`maxiter` option, so for every step function, convergence test and starting
point it performs at most 1500 iterations (and, being fuel-bounded, it always
terminates). -/
theorem c6_bounded_iterations {α : Type} (step : α → α) (converged : α → Bool)
    (s0 : α) :
    (minimizeNM step converged s0).2 ≤ maxiter ∧ maxiter = 1500 :=
  ⟨nmLoop_le step converged maxiter s0, rfl⟩

/-- Claim C4: the present-bias weight β enters `predchoice` only through
`beta ** today`, so two parameter vectors that agree in everything except β
produce the same predicted effort and the same likelihood contribution on
every observation with `today = 0`; and on some observation with `today = 1`
two different values of β produce different predicted efforts. -/
theorem c4_beta_present_only :
    (∀ (p q : Params) (o : Obs),
        p.betahat = q.betahat → p.delta = q.delta → p.gamma = q.gamma →
        p.phi = q.phi → p.alpha = q.alpha → p.sigma = q.sigma →
        o.today = 0 →
        predchoice p o = predchoice q o ∧ probObs p o = probObs q o)
    ∧ ∃ (p q : Params) (o : Obs),
        o.today = 1 ∧ p.beta ≠ q.beta
        ∧ p.betahat = q.betahat ∧ p.delta = q.delta ∧ p.gamma = q.gamma
        ∧ p.phi = q.phi ∧ p.alpha = q.alpha ∧ p.sigma = q.sigma
        ∧ predchoice p o ≠ predchoice q o := by
  constructor
  · intro p q o hbh hd hg hph ha hs ht
    have hpc : predchoice p o = predchoice q o := by
      unfold predchoice
      rw [ht, hbh, hd, hg, hph, ha]
      simp [Real.rpow_zero]
    exact ⟨hpc, by unfold probObs; rw [hpc, hs]⟩
  · refine ⟨⟨1, 1, 1, 2, 1, 0, 1⟩, ⟨2, 1, 1, 2, 1, 0, 1⟩,
      ⟨0, 0, 1, 1, 0, 0, 50, 0, 0⟩, rfl, by norm_num,
      rfl, rfl, rfl, rfl, rfl, rfl, ?_⟩
    unfold predchoice
    norm_num [Real.one_rpow, Real.rpow_one]

/-- Witness for C4: two identical parameter vectors trivially differ only in
β, and on the `today = 0` observation `obsLower` the conclusion holds. -/
theorem c4_beta_present_only_witness :
    (params1.betahat = params1.betahat ∧ obsLower.today = 0)
    ∧ predchoice params1 obsLower = predchoice params1 obsLower
    ∧ probObs params1 obsLower = probObs params1 obsLower :=
  ⟨⟨rfl, rfl⟩,
    c4_beta_present_only.1 params1 params1 obsLower rfl rfl rfl rfl rfl rfl rfl⟩

/-- Field-wise equality of two parameter vectors. -/
def paramsFieldsEq (p q : Params) : Prop :=
  p.beta = q.beta ∧ p.betahat = q.betahat ∧ p.delta = q.delta
    ∧ p.gamma = q.gamma ∧ p.phi = q.phi ∧ p.alpha = q.alpha ∧ p.sigma = q.sigma

/-- Field-wise equality of two observations. -/
def obsFieldsEq (o o2 : Obs) : Prop :=
  o.wid = o2.wid ∧ o.netdistance = o2.netdistance ∧ o.wage = o2.wage
    ∧ o.today = o2.today ∧ o.prediction = o2.prediction ∧ o.pb = o2.pb
    ∧ o.effort = o2.effort ∧ o.ind_effort10 = o2.ind_effort10
    ∧ o.ind_effort110 = o2.ind_effort110

/-- Parameter vectors with equal fields are equal. -/
lemma paramsFieldsEq_eq {p q : Params} (h : paramsFieldsEq p q) : p = q := by
  unfold paramsFieldsEq at h
  cases p
  cases q
  obtain ⟨h1, h2, h3, h4, h5, h6, h7⟩ := h
  simp_all

/-- Observations with equal fields are equal. -/
lemma obsFieldsEq_eq {o o2 : Obs} (h : obsFieldsEq o o2) : o = o2 := by
  unfold obsFieldsEq at h
  cases o
  cases o2
  obtain ⟨h1, h2, h3, h4, h5, h6, h7, h8, h9⟩ := h
  simp_all

/-- Lists of observations that agree field-wise entry by entry are equal. -/
lemma forall2_obs_eq {d d2 : List Obs} (h : List.Forall₂ obsFieldsEq d d2) :
    d = d2 := by
  induction h with
  | nil => rfl
  | cons h1 _ ih => rw [obsFieldsEq_eq h1, ih]

/-- Claim C8: `negloglike` is deterministic — it depends only on the values of
its arguments.  Two evaluations on argument-wise identical parameter vectors
and data tables return the same value. -/
theorem c8_deterministic (p q : Params) (d d2 : List Obs)
    (hp : paramsFieldsEq p q) (hd : List.Forall₂ obsFieldsEq d d2) :
    negll p d = negll q d2 := by
  rw [paramsFieldsEq_eq hp, forall2_obs_eq hd]

/-- Witness for C8: a concrete evaluation at `params1` and the one-row table
`[obsLower]`. -/
theorem c8_deterministic_witness :
    paramsFieldsEq params1 params1
    ∧ List.Forall₂ obsFieldsEq [obsLower] [obsLower]
    ∧ negll params1 [obsLower] = negll params1 [obsLower] :=
  ⟨⟨rfl, rfl, rfl, rfl, rfl, rfl, rfl⟩,
    .cons ⟨rfl, rfl, rfl, rfl, rfl, rfl, rfl, rfl, rfl⟩ .nil,
    c8_deterministic params1 params1 [obsLower] [obsLower]
      ⟨rfl, rfl, rfl, rfl, rfl, rfl, rfl⟩
      (.cons ⟨rfl, rfl, rfl, rfl, rfl, rfl, rfl, rfl, rfl⟩ .nil)⟩

/-- Negating a 7×7 real matrix negates its nonsingular inverse. -/
lemma matrix_inv_neg (A : Matrix (Fin 7) (Fin 7) ℝ) : (-A)⁻¹ = -(A⁻¹) := by
  rw [Matrix.inv_def, Matrix.inv_def]
  have hadj : (-A).adjugate = A.adjugate := by
    have h := Matrix.adjugate_smul (-1 : ℝ) A
    rw [neg_one_smul] at h
    rw [h]
    norm_num [Fintype.card_fin]
  have hdet : (-A).det = -A.det := by
    rw [Matrix.det_neg]
    norm_num [Fintype.card_fin]
  rw [hadj, hdet, Ring.inverse_eq_inv, Ring.inverse_eq_inv, inv_neg, neg_smul]

/-- Claim C1: the reported standard errors are the square roots of the
diagonal of `Adj · (H⁻¹ G H⁻¹)` where `H` is the Hessian of the
log-likelihood at the estimate.  The code inverts the Hessian `Hneg` of the
NEGATIVE log-likelihood `negloglike`; since `H = -Hneg` and the two sign
flips cancel in the sandwich, the computed `se_cluster` coincides with the
claimed formula whenever `H` is invertible. -/
theorem c1_se_cluster_sandwich (adj : ℝ) (Hneg G : Matrix (Fin 7) (Fin 7) ℝ)
    (_hH : IsUnit (-Hneg).det) :
    se_cluster adj Hneg G
      = fun j => Real.sqrt ((adj • ((-Hneg)⁻¹ * G * (-Hneg)⁻¹)) j j) := by
  funext j
  unfold se_cluster varcov_estimates hess_inv
  rw [matrix_inv_neg]
  simp [neg_mul, mul_neg]

/-- Witness for C1: with `Hneg = -1` the log-likelihood Hessian `-Hneg = 1`
is invertible and the sandwich identity holds. -/
theorem c1_se_cluster_sandwich_witness :
    IsUnit (-(-1 : Matrix (Fin 7) (Fin 7) ℝ)).det
    ∧ se_cluster 1 (-1) 1
        = fun j => Real.sqrt
            ((((1 : ℝ) • ((-(-1 : Matrix (Fin 7) (Fin 7) ℝ))⁻¹ * 1
              * (-(-1 : Matrix (Fin 7) (Fin 7) ℝ))⁻¹)
              : Matrix (Fin 7) (Fin 7) ℝ)) j j) :=
  ⟨by simp, c1_se_cluster_sandwich 1 (-1) 1 (by simp)⟩

/-- Summing a list of negated score vectors negates the sum. -/
lemma sum_map_neg (g : Obs → Fin 7 → ℝ) (l : List Obs) :
    (l.map (fun o => -(g o))).sum = -((l.map g).sum) := by
  induction l with
  | nil => simp
  | cons a l ih => simp [ih, neg_add, add_comm]

/-- The cluster score of a negated per-observation score function is the
negated cluster score. -/
lemma clusterScore_neg (g : Obs → Fin 7 → ℝ) (data : List Obs) (w : ℤ) :
    clusterScore (fun o => -(g o)) data w = -(clusterScore g data w) := by
  unfold clusterScore sumScores
  exact sum_map_neg g _

/-- The outer product of a score vector with itself is unchanged by
negation. -/
lemma outer_neg (s : Fin 7 → ℝ) : outer (-s) = outer s := by
  ext k l
  simp [outer]

/-- Sum over the `toFinset` of a list of ids equals the list-sum over the
deduplicated list. -/
lemma list_toFinset_sum {M : Type} [AddCommMonoid M] (l : List ℤ) (f : ℤ → M) :
    ∑ w ∈ l.toFinset, f w = (l.dedup.map f).sum := by
  induction l with
  | nil => simp
  | cons a l ih =>
      by_cases ha : a ∈ l
      · rw [List.toFinset_cons, Finset.insert_eq_self.mpr (List.mem_toFinset.mpr ha),
          List.dedup_cons_of_mem ha, ih]
      · rw [List.toFinset_cons, Finset.sum_insert (by simp [ha]),
          List.dedup_cons_of_not_mem ha, List.map_cons, List.sum_cons, ih]

/-- Claim C2: the middle matrix is computed in two stages — per-row gradients
are summed within each `wid`-cluster, and `G` is the sum over clusters of the
outer product of each summed score vector with itself (`Gmat` follows the
code path `groupby`/outer/sum, `GSpec` the spec formula) — and `G` is
unchanged when every per-observation score is replaced by its negation, so
computing it from the gradients of `negloglike` agrees with the claimed
per-cluster scores of the log-likelihood. -/
theorem c2_G_two_stage (g : Obs → Fin 7 → ℝ) (data : List Obs) :
    Gmat g data = GSpec g data
    ∧ Gmat (fun o => -(g o)) data = Gmat g data := by
  constructor
  · unfold Gmat GSpec gradients_indiv
    rw [list_toFinset_sum, List.map_map]
    rfl
  · unfold Gmat gradients_indiv
    have h : (outer ∘ clusterScore (fun o => -(g o)) data)
        = (outer ∘ clusterScore g data) := by
      funext w
      simp [Function.comp, clusterScore_neg, outer_neg]
    rw [List.map_map, List.map_map, h]

/-- Claim C10: the degrees-of-freedom/cluster adjustment
`(Nobs-1)/(Nobs-K) · Nclusters/(Nclusters-1)` is strictly greater than 1 in
exact rational arithmetic whenever `Nobs > K > 1` and `Nclusters > 1`, so
every positive diagonal entry of the unadjusted sandwich is strictly
inflated. -/
theorem c10_adj_inflates (nobs k nclus : ℕ) (S : Matrix (Fin 7) (Fin 7) ℚ)
    (j : Fin 7) (h1 : k < nobs) (h2 : 1 < k) (h3 : 1 < nclus) (h4 : 0 < S j j) :
    1 < adjQ nobs k nclus ∧ S j j < (adjQ nobs k nclus • S) j j := by
  have hk : (1 : ℚ) < (k : ℚ) := by exact_mod_cast h2
  have hkn : (k : ℚ) < (nobs : ℚ) := by exact_mod_cast h1
  have hc : (1 : ℚ) < (nclus : ℚ) := by exact_mod_cast h3
  have e1 : (0 : ℚ) < (nobs : ℚ) - (k : ℚ) := by linarith
  have e2 : (0 : ℚ) < (nclus : ℚ) - 1 := by linarith
  have hb : (1 : ℚ) < adjQ nobs k nclus := by
    unfold adjQ
    rw [mul_div_assoc]
    have f1 : (1 : ℚ) < ((nobs : ℚ) - 1) / ((nobs : ℚ) - (k : ℚ)) := by
      rw [lt_div_iff₀ e1]
      linarith
    have f2 : (1 : ℚ) < (nclus : ℚ) / ((nclus : ℚ) - 1) := by
      rw [lt_div_iff₀ e2]
      linarith
    exact one_lt_mul f1.le f2
  refine ⟨hb, ?_⟩
  have hs : (adjQ nobs k nclus • S) j j = adjQ nobs k nclus * S j j := rfl
  rw [hs]
  exact (lt_mul_iff_one_lt_left h4).mpr hb

/-- Witness for C10: the notebook run has 8049 observations, 7 parameters and
72 clusters, and the adjustment strictly inflates the unit diagonal. -/
theorem c10_adj_inflates_witness :
    (7 < 8049 ∧ 1 < 7 ∧ 1 < 72
      ∧ (0 : ℚ) < (1 : Matrix (Fin 7) (Fin 7) ℚ) 0 0)
    ∧ (1 < adjQ 8049 7 72
      ∧ (1 : Matrix (Fin 7) (Fin 7) ℚ) 0 0
          < (adjQ 8049 7 72 • (1 : Matrix (Fin 7) (Fin 7) ℚ)) 0 0) :=
  ⟨⟨by norm_num, by norm_num, by norm_num, by norm_num [Matrix.one_apply_eq]⟩,
    c10_adj_inflates 8049 7 72 1 0 (by norm_num) (by norm_num) (by norm_num)
      (by norm_num [Matrix.one_apply_eq])⟩

end Table1
